import Mathlib

/-!
Verification of the Token Capture & Switch Engine of discord-altmng.

The repository ships a React frontend (`src/App.tsx`) that drives the engine
through Tauri commands, and a Rust backend (`src-tauri/src/lib.rs`, per the
README the home of all backend logic) that implements the engine itself:
installation locator, process controller, store codec and switch protocol.
The backend file is not part of the source tree given here, so the engine
components are modelled from the specification, as flagged on each such
definition.  The frontend command layer is embedded directly from
`src/App.tsx`.
-/

/-! ## Byte sequences and channels -/

/-- Keys and values of the client's store are arbitrary byte sequences. -/
abbrev Bytes := List Nat

/-- Release channels of the client (README: Stable, PTB, Canary). -/
inductive Channel
  | stable
  | ptb
  | canary
  deriving DecidableEq

/-- A channel preference as stored in the launcher settings
(`DiscordChannel` in `src/App.tsx`: "auto" or a concrete channel). -/
inductive ChannelPref
  | auto
  | stable
  | ptb
  | canary
  deriving DecidableEq

/-! ## Store codec (spec §4.3)

Modelled from the spec: `src-tauri/src/lib.rs` (token management) is missing
from the source tree, so the codec is a key/value map with a readability flag,
faithful to §4.3: a single credential key matched by exact byte equality,
reads returning the current value or Absent, writes replacing the value in
place and preserving every other key. -/

/-- The fixed byte constant naming the credential key inside the store
(spec §4.3/§9: "matched by exact byte equality against a known constant";
the literal value is a fixed external contract, represented here by a
concrete stand-in). -/
def tokenKey : Bytes := [116, 111, 107, 101, 110]

/-- First-match lookup in the store's key/value entries. -/
def lookupVal : List (Bytes × Bytes) → Bytes → Option Bytes
  | [], _ => none
  | (k, v) :: rest, key => if k = key then some v else lookupVal rest key

/-- Replace the value of `key` in place, preserving every other entry;
if `key` is absent, create it at the end (spec §4.3: a first-ever write
follows the same encoding the client would use). -/
def setVal : List (Bytes × Bytes) → Bytes → Bytes → List (Bytes × Bytes)
  | [], key, v => [(key, v)]
  | (k, w) :: rest, key, v =>
      if k = key then (key, v) :: rest else (k, w) :: setVal rest key v

/-- Remove the entry holding `key`, preserving every other entry. -/
def removeVal : List (Bytes × Bytes) → Bytes → List (Bytes × Bytes)
  | [], _ => []
  | (k, w) :: rest, key =>
      if k = key then rest else (k, w) :: removeVal rest key

/-- One on-disk key/value store: its live key set plus a flag recording
whether the files are structurally recognized by the codec (missing, torn
or unknown-version files make it unreadable, spec §4.3). -/
structure Store where
  entries : List (Bytes × Bytes)
  readable : Bool
  deriving DecidableEq

/-- Codec-level failures (spec §4.3). -/
inductive CodecError
  | storeLocked
  | storeUnreadable
  deriving DecidableEq

/-- Result of a credential read: the current token value or Absent. -/
inductive ReadResult
  | credential (t : Bytes)
  | absent
  deriving DecidableEq

/-- Modelled from the spec: `readCredential(storeHandle)` of §4.3
(implementation lives in the missing `src-tauri/src/lib.rs`).  Verifies the
exclusive-access precondition (`StoreLocked`), rejects structurally
unrecognized files (`StoreUnreadable`), otherwise scans for the credential
key and returns its value or Absent, passing the store through untouched. -/
def readCredential (locked : Bool) (s : Store) :
    Except CodecError (ReadResult × Store) :=
  if locked then .error .storeLocked
  else if s.readable = false then .error .storeUnreadable
  else
    match lookupVal s.entries tokenKey with
    | some v => .ok (.credential v, s)
    | none => .ok (.absent, s)

/-- Modelled from the spec: `writeCredential(storeHandle, token)` of §4.3
(implementation lives in the missing `src-tauri/src/lib.rs`).  Same
preconditions as the read; on success replaces the credential key's value
byte-for-byte in place, preserving every other key. -/
def writeCredential (locked : Bool) (s : Store) (tok : Bytes) :
    Except CodecError Store :=
  if locked then .error .storeLocked
  else if s.readable = false then .error .storeUnreadable
  else .ok { s with entries := setVal s.entries tokenKey tok }

/-- Modelled from the spec: the clear/neutralize step of prepare-login
(§4.4: "calls Store Codec to clear/neutralize any existing token"),
implemented as removal of the credential key under the same preconditions. -/
def clearCredential (locked : Bool) (s : Store) : Except CodecError Store :=
  if locked then .error .storeLocked
  else if s.readable = false then .error .storeUnreadable
  else .ok { s with entries := removeVal s.entries tokenKey }

/-! ### Assoc-list lemmas for the codec -/

theorem lookupVal_setVal_self (es : List (Bytes × Bytes)) (key v : Bytes) :
    lookupVal (setVal es key v) key = some v := by
  induction es with
  | nil => simp [setVal, lookupVal]
  | cons hd tl ih =>
      obtain ⟨k, w⟩ := hd
      by_cases hk : k = key
      · simp [setVal, hk, lookupVal]
      · simp [setVal, hk, lookupVal, ih]

theorem lookupVal_setVal_other (es : List (Bytes × Bytes)) (key v k2 : Bytes)
    (h : k2 ≠ key) : lookupVal (setVal es key v) k2 = lookupVal es k2 := by
  induction es with
  | nil => simp [setVal, lookupVal, Ne.symm h]
  | cons hd tl ih =>
      obtain ⟨k, w⟩ := hd
      by_cases hk : k = key
      · subst hk
        simp [setVal, lookupVal, Ne.symm h]
      · simp [setVal, hk, lookupVal, ih]

/-! ## Process controller (spec §4.2)

Modelled from the spec: the process-lifecycle half of the missing
`src-tauri/src/lib.rs`.  A channel's process state records whether a live
client process exists (detected by OS process enumeration), whether a
graceful-termination request would succeed within the caller's timeout,
and whether the OS would agree to spawn the executable. -/

structure ProcState where
  running : Bool
  stoppable : Bool
  launchable : Bool
  deriving DecidableEq

/-- Modelled from the spec: `ensureStopped(channel, timeout)` of §4.2
(implementation in the missing `src-tauri/src/lib.rs`).  If no live process
is detected the call succeeds immediately; otherwise it requests graceful
termination and polls, yielding the stopped state on success and `none`
(the `StopTimeout` outcome) if the process survives past the timeout. -/
def ensureStopped (p : ProcState) : Option ProcState :=
  if p.running = false then some p
  else if p.stoppable then some { p with running := false }
  else none

/-- Modelled from the spec: `launch(descriptor)` of §4.2 (implementation in
the missing `src-tauri/src/lib.rs`).  Starts the executable, yielding the
running state, or `none` (the `LaunchFailed` outcome) if the OS refuses. -/
def launch (p : ProcState) : Option ProcState :=
  if p.launchable then some { p with running := true } else none

/-! ## Switch protocol (spec §4.4, §5)

Modelled from the spec: the three-phase protocol of the missing
`src-tauri/src/lib.rs` (`prepare_login`, `capture_token`,
`switch_to_profile`), embedded as functions on an explicit world state that
also emit the sequence of process/store operations they perform, so the §5
ordering guarantees are provable as trace properties. -/

/-- Per-profile protocol states (§4.4). -/
inductive PState
  | idle
  | loginPending
  | captured
  | switched
  deriving DecidableEq

/-- The §7 error taxonomy. -/
inductive EngineError
  | notFound
  | launchFailed
  | stopTimeout
  | storeLocked
  | storeUnreadable
  | noCredentialFound
  | noSavedToken
  deriving DecidableEq

/-- Switch outcomes (§3). -/
inductive Outcome
  | tokenCaptured (t : Bytes)
  | tokenInjected
  | launchedForLogin
  | noOp
  deriving DecidableEq

/-- Observable operations a phase performs, in order. -/
inductive Event
  | stopOk
  | stopFail
  | readOk
  | readAbsent
  | readErr (e : CodecError)
  | writeOk
  | writeErr (e : CodecError)
  | launchOk
  | launchFail
  deriving DecidableEq

/-- The world one protocol phase acts on: the channel's store, whether some
other process holds the store open (the racy external-client case of §9),
the channel's process state, the target profile's saved token (held by the
external Profile record), and the per-profile machine state. -/
structure World where
  store : Store
  externallyLocked : Bool
  proc : ProcState
  profileToken : Option Bytes
  pstate : PState
  deriving DecidableEq

/-- Map codec errors into the §7 taxonomy. -/
def codecErrToEngine : CodecError → EngineError
  | .storeLocked => .storeLocked
  | .storeUnreadable => .storeUnreadable

/-- Modelled from the spec: prepare-login (§4.4) from the missing
`src-tauri/src/lib.rs`, under the §5 ordering (stop before any store
operation): ensure the client is stopped, clear/neutralize the stored
token so the client shows its login screen, then relaunch; transitions to
`LoginPending`, every failure returning to `Idle`. -/
def prepareLoginPhase (w : World) :
    Except EngineError Outcome × World × List Event :=
  match ensureStopped w.proc with
  | none => (.error .stopTimeout, { w with pstate := .idle }, [.stopFail])
  | some p1 =>
      match clearCredential w.externallyLocked w.store with
      | .error e =>
          (.error (codecErrToEngine e),
           { w with proc := p1, pstate := .idle }, [.stopOk, .writeErr e])
      | .ok s1 =>
          match launch p1 with
          | none =>
              (.error .launchFailed,
               { w with proc := p1, store := s1, pstate := .idle },
               [.stopOk, .writeOk, .launchFail])
          | some p2 =>
              (.ok .launchedForLogin,
               { w with proc := p2, store := s1, pstate := .loginPending },
               [.stopOk, .writeOk, .launchOk])

/-- Modelled from the spec: capture (§4.4) from the missing
`src-tauri/src/lib.rs`: ensure the client is stopped (the user has logged
in and closed it), then read the credential.  Absent yields
`NoCredentialFound` and returns to `Idle`; stop/codec failures leave the
re-enterable `LoginPending` state so capture can be retried without
relaunching; success stores the token on the profile and moves to
`Captured`. -/
def capturePhase (w : World) :
    Except EngineError Outcome × World × List Event :=
  match ensureStopped w.proc with
  | none =>
      (.error .stopTimeout, { w with pstate := .loginPending }, [.stopFail])
  | some p1 =>
      match readCredential w.externallyLocked w.store with
      | .error e =>
          (.error (codecErrToEngine e),
           { w with proc := p1, pstate := .loginPending },
           [.stopOk, .readErr e])
      | .ok (.absent, s1) =>
          (.error .noCredentialFound,
           { w with proc := p1, store := s1, pstate := .idle },
           [.stopOk, .readAbsent])
      | .ok (.credential t, s1) =>
          (.ok (.tokenCaptured t),
           { w with proc := p1, store := s1, profileToken := some t,
                    pstate := .captured },
           [.stopOk, .readOk])

/-- Modelled from the spec: switch-to (§4.4) from the missing
`src-tauri/src/lib.rs`: the missing-token check comes first (before any
store mutation), then stop, write the saved token, and relaunch;
transitions to `Switched`, every failure returning to `Idle`. -/
def switchToPhase (w : World) :
    Except EngineError Outcome × World × List Event :=
  match w.profileToken with
  | none => (.error .noSavedToken, { w with pstate := .idle }, [])
  | some t =>
      match ensureStopped w.proc with
      | none => (.error .stopTimeout, { w with pstate := .idle }, [.stopFail])
      | some p1 =>
          match writeCredential w.externallyLocked w.store t with
          | .error e =>
              (.error (codecErrToEngine e),
               { w with proc := p1, pstate := .idle },
               [.stopOk, .writeErr e])
          | .ok s1 =>
              match launch p1 with
              | none =>
                  (.error .launchFailed,
                   { w with proc := p1, store := s1, pstate := .idle },
                   [.stopOk, .writeOk, .launchFail])
              | some p2 =>
                  (.ok .tokenInjected,
                   { w with proc := p2, store := s1, pstate := .switched },
                   [.stopOk, .writeOk, .launchOk])

/-- The three protocol phases exposed by the engine. -/
inductive Phase
  | prepareLogin
  | capture
  | switchTo
  deriving DecidableEq

/-- Run one protocol phase on a world. -/
def runPhase : Phase → World → Except EngineError Outcome × World × List Event
  | .prepareLogin, w => prepareLoginPhase w
  | .capture, w => capturePhase w
  | .switchTo, w => switchToPhase w

/-- Store-touching events: credential reads and writes. -/
def isStoreEvent : Event → Bool
  | .readOk => true
  | .readAbsent => true
  | .readErr _ => true
  | .writeOk => true
  | .writeErr _ => true
  | _ => false

/-- Store-writing events: credential write attempts. -/
def isWriteEvent : Event → Bool
  | .writeOk => true
  | .writeErr _ => true
  | _ => false

/-- The §5 ordering discipline on one phase's trace: no store operation may
occur before `ensureStopped` has confirmed the process gone, and after a
stop timeout no store operation may occur at all. -/
def stopBeforeStoreOps : List Event → Bool
  | [] => true
  | .stopOk :: _ => true
  | .stopFail :: rest => rest.all (fun e => !isStoreEvent e)
  | e :: rest => !isStoreEvent e && stopBeforeStoreOps rest

/-- The §7 hard-stop discipline on one phase's trace: once a credential
read has failed with `StoreUnreadable`, no write attempt follows. -/
def noWriteAfterUnreadableRead : List Event → Bool
  | [] => true
  | .readErr .storeUnreadable :: rest => rest.all (fun e => !isWriteEvent e)
  | _ :: rest => noWriteAfterUnreadableRead rest

/-! ## Installation locator (spec §4.1)

Modelled from the spec: `detect_discord_installations` of the missing
`src-tauri/src/lib.rs`.  The OS environment is embedded as the set of paths
that currently exist as executables together with the per-OS conventional
probe locations for each channel. -/

/-- A discovered installation (§3: channel, human label, executable path;
the user-data root is omitted, no claim mentions it). -/
structure Installation where
  channel : Channel
  label : String
  executablePath : String
  deriving DecidableEq

/-- The filesystem/OS facts the locator consults: which paths exist as
executables, and the conventional install locations probed per channel. -/
structure OsEnv where
  existing : List String
  probes : List (Channel × String)
  deriving DecidableEq

/-- Human label per channel (README: Stable, PTB, Canary builds). -/
def channelLabel : Channel → String
  | .stable => "Discord"
  | .ptb => "Discord PTB"
  | .canary => "Discord Canary"

/-- The concrete channel a preference designates ("auto" prefers stable). -/
def preferredChannel : ChannelPref → Channel
  | .auto => .stable
  | .stable => .stable
  | .ptb => .ptb
  | .canary => .canary

/-- Probe one channel's conventional locations, yielding a descriptor for
the first location that exists, or `none` when the channel has no
executable (omitted from the result, never an error, §4.1). -/
def probeChannel (env : OsEnv) (c : Channel) : Option Installation :=
  match (env.probes.filter (fun pr => pr.1 = c)).find?
      (fun pr => env.existing.contains pr.2) with
  | some pr =>
      some { channel := c, label := channelLabel c, executablePath := pr.2 }
  | none => none

/-- Relevance order of channels per preference (§4.1: "auto" means stable,
then beta/PTB, then nightly/canary; a concrete preference puts its channel
first). -/
def channelOrder : ChannelPref → List Channel
  | .auto => [.stable, .ptb, .canary]
  | .stable => [.stable, .ptb, .canary]
  | .ptb => [.ptb, .stable, .canary]
  | .canary => [.canary, .stable, .ptb]

/-- All installations found by per-OS probing, in relevance order. -/
def probeAll (pref : ChannelPref) (env : OsEnv) : List Installation :=
  (channelOrder pref).filterMap (probeChannel env)

/-- Modelled from the spec: `locate(preferredChannel, customPathOverride)`
of §4.1 (implementation in the missing `src-tauri/src/lib.rs`).  An
existing custom path is the sole, highest-priority result tagged with the
preferred channel; a dangling one falls back to normal probing.  `NotFound`
is raised only when probing found nothing and no override was given. -/
def locate (pref : ChannelPref) (customPathOverride : Option String)
    (env : OsEnv) : Except EngineError (List Installation) :=
  match customPathOverride with
  | some p =>
      if env.existing.contains p then
        .ok [{ channel := preferredChannel pref, label := "Custom",
               executablePath := p }]
      else .ok (probeAll pref env)
  | none =>
      if probeAll pref env = [] then .error .notFound
      else .ok (probeAll pref env)

/-! ## Frontend command layer (from `src/App.tsx`)

These definitions are embedded directly from the source: each frontend
handler issues one Tauri `invoke` with a command name and named
arguments. -/

/-- The success payload shapes of §6, as declared by the frontend's
`invoke<T>` type parameters in `src/App.tsx`: `DiscordInstallation[]` is an
installation list, `string` a confirmation message, `Profile` an updated
profile. -/
inductive ResultShape
  | installationList
  | confirmationMessage
  | updatedProfile
  deriving DecidableEq

/-- One Tauri `invoke` call: the backend command name, the named arguments
passed with it, and the declared shape of its success payload. -/
structure Invocation where
  cmd : String
  args : List (String × String)
  result : ResultShape
  deriving DecidableEq

/-- `prepareLogin(profileId)` of `src/App.tsx` (lines 199-210): issues
`invoke<string>("prepare_login")` with no arguments; its `profileId`
parameter only feeds local UI state (`setWaitingForLogin`). -/
def prepareLoginHandler (profileId : String) : Invocation :=
  { cmd := "prepare_login", args := [], result := .confirmationMessage }

/-- `captureToken(profileId)` of `src/App.tsx` (lines 213-229): issues
`invoke<Profile>("capture_token", \x7b profileId \x7d)`. -/
def captureTokenHandler (profileId : String) : Invocation :=
  { cmd := "capture_token", args := [("profileId", profileId)],
    result := .updatedProfile }

/-- `switchToProfile(profile)` of `src/App.tsx` (lines 232-244): issues
`invoke<string>("switch_to_profile", \x7b profileId: profile.id \x7d)`. -/
def switchToProfileHandler (profileId : String) : Invocation :=
  { cmd := "switch_to_profile", args := [("profileId", profileId)],
    result := .confirmationMessage }

/-- The detection call of `src/App.tsx` (`loadData` line 108 and
`saveLauncherSettings` lines 254-256): issues
`invoke<DiscordInstallation[]>("detect_discord_installations")` with no
arguments. -/
def detectInstallationsHandler : Invocation :=
  { cmd := "detect_discord_installations", args := [],
    result := .installationList }

/-- The four engine invocations the frontend can issue for a given profile
id, with command name and argument names as `src/App.tsx` sends them. -/
def engineInvocations (profileId : String) : List Invocation :=
  [detectInstallationsHandler, prepareLoginHandler profileId,
   captureTokenHandler profileId, switchToProfileHandler profileId]

/-- The §6 signature the spec gives `prepareLogin`: one `channel`
argument.  Stated from the spec's words, for comparison against the
embedded frontend call. -/
def specPrepareLoginArgNames : List String := ["channel"]

/-- The JavaScript `String.prototype.trim()` used by `src/App.tsx`:
strip leading and trailing whitespace characters. -/
def jsTrim (s : String) : String :=
  String.mk (((s.data.dropWhile Char.isWhitespace).reverse.dropWhile
    Char.isWhitespace).reverse)

/-- `saveLauncherSettings` of `src/App.tsx` (lines 246-263): the
`customExecutablePath` field sent to the backend is
`settingsCustomPath.trim() || null`; the empty string is the only falsy
trimmed value, so a blank input becomes `null` and any other input is sent
trimmed. -/
def customExecutablePathPayload (input : String) : Option String :=
  let t := jsTrim input
  if t = "" then none else some t

/-! ## Helper lemmas -/

theorem ensureStopped_of_stoppable (p : ProcState)
    (h : p.running = false ∨ p.stoppable = true) :
    ∃ q, ensureStopped p = some q ∧ q.launchable = p.launchable := by
  unfold ensureStopped
  rcases h with h | h
  · exact ⟨p, by simp [h]⟩
  · by_cases hr : p.running = false
    · exact ⟨p, by simp [hr]⟩
    · exact ⟨{ p with running := false }, by simp [hr, h]⟩

/-! ## Claims -/

/-- A sample world: two-key readable store, stoppable and launchable
process, a saved token. -/
def sampleWorld : World :=
  { store := { entries := [([1], [2]), (tokenKey, [3])], readable := true },
    externallyLocked := false,
    proc := { running := true, stoppable := true, launchable := true },
    profileToken := some [7, 8],
    pstate := .idle }

/-- C1: for every profile with a captured token, switch-to writes exactly
that token into the store (a direct read yields it byte-for-byte) and every
key other than the credential key keeps its value unchanged. -/
theorem C1_switch_writes_token_preserves_rest (w : World) (t : Bytes)
    (htok : w.profileToken = some t)
    (hstop : w.proc.running = false ∨ w.proc.stoppable = true)
    (hlock : w.externallyLocked = false)
    (hread : w.store.readable = true)
    (hlaunch : w.proc.launchable = true) :
    (runPhase .switchTo w).1 = .ok .tokenInjected ∧
    lookupVal (runPhase .switchTo w).2.1.store.entries tokenKey = some t ∧
    ∀ k, k ≠ tokenKey →
      lookupVal (runPhase .switchTo w).2.1.store.entries k =
        lookupVal w.store.entries k := by
  obtain ⟨q, hq, hql⟩ := ensureStopped_of_stoppable w.proc hstop
  have hw : writeCredential w.externallyLocked w.store t =
      .ok { w.store with entries := setVal w.store.entries tokenKey t } := by
    simp [writeCredential, hlock, hread]
  have hl : launch q = some { q with running := true } := by
    simp [launch, hql, hlaunch]
  simp only [runPhase, switchToPhase, htok, hq, hw, hl]
  refine ⟨trivial, lookupVal_setVal_self _ _ _, ?_⟩
  intro k hk
  exact lookupVal_setVal_other _ _ _ _ hk

/-- C1 witness at the sample world. -/
theorem C1_witness :
    (runPhase .switchTo sampleWorld).1 = .ok .tokenInjected ∧
    lookupVal (runPhase .switchTo sampleWorld).2.1.store.entries tokenKey =
      some [7, 8] ∧
    ∀ k, k ≠ tokenKey →
      lookupVal (runPhase .switchTo sampleWorld).2.1.store.entries k =
        lookupVal sampleWorld.store.entries k :=
  C1_switch_writes_token_preserves_rest sampleWorld [7, 8] rfl (Or.inr rfl)
    rfl rfl rfl

/-- A world whose target profile has never completed capture. -/
def tokenlessWorld : World := { sampleWorld with profileToken := none }

/-- C3: switch-to on a profile with no saved token fails with NoSavedToken
before anything happens: the world (in particular the store) is returned
untouched and the trace is empty, so no store mutation was even attempted. -/
theorem C3_no_saved_token_untouched (w : World) (h : w.profileToken = none) :
    (runPhase .switchTo w).1 = .error .noSavedToken ∧
    (runPhase .switchTo w).2.1.store = w.store ∧
    (runPhase .switchTo w).2.2 = [] := by
  simp [runPhase, switchToPhase, h]

/-- C3 witness at a tokenless world. -/
theorem C3_witness :
    (runPhase .switchTo tokenlessWorld).1 = .error .noSavedToken ∧
    (runPhase .switchTo tokenlessWorld).2.1.store = tokenlessWorld.store ∧
    (runPhase .switchTo tokenlessWorld).2.2 = [] :=
  C3_no_saved_token_untouched tokenlessWorld rfl

/-- C8: a credential read passes the store through unmodified, so reading
twice with no intervening write returns the same value both times. -/
theorem C8_read_idempotent (locked : Bool) (s : Store) (r : ReadResult)
    (s2 : Store) (h : readCredential locked s = .ok (r, s2)) :
    s2 = s ∧ readCredential locked s2 = .ok (r, s2) := by
  unfold readCredential at h ⊢
  by_cases hl : locked
  · simp [hl] at h
  · by_cases hr : s.readable = false
    · simp [hl, hr] at h
    · cases hv : lookupVal s.entries tokenKey with
      | some v =>
          simp [hl, hr, hv] at h
          obtain ⟨rfl, rfl⟩ := h
          simp [hl, hr, hv]
      | none =>
          simp [hl, hr, hv] at h
          obtain ⟨rfl, rfl⟩ := h
          simp [hl, hr, hv]

/-- C8 witness at the sample store. -/
theorem C8_witness :
    sampleWorld.store = sampleWorld.store ∧
    readCredential false sampleWorld.store =
      .ok (.credential [3], sampleWorld.store) :=
  C8_read_idempotent false sampleWorld.store (.credential [3])
    sampleWorld.store rfl

/-- C2: in every phase, no store operation appears in the trace before
`ensureStopped` has confirmed the process gone, and after a stop timeout no
store read or write is performed at all. -/
theorem C2_ensure_stopped_precedes_store_ops (ph : Phase) (w : World) :
    stopBeforeStoreOps (runPhase ph w).2.2 = true := by
  cases ph
  all_goals
    simp only [runPhase, prepareLoginPhase, capturePhase, switchToPhase]
    repeat' split
  all_goals rfl

/-- Whether a phase result is a success. -/
def phaseOk : Except EngineError Outcome → Bool
  | .ok _ => true
  | .error _ => false

theorem runPhase_state_after (ph : Phase) (w : World) :
    phaseOk (runPhase ph w).1 = true ∨
    (runPhase ph w).2.1.pstate = .idle ∨
    (ph = .capture ∧ (runPhase ph w).2.1.pstate = .loginPending) := by
  cases ph
  all_goals
    simp only [runPhase, prepareLoginPhase, capturePhase, switchToPhase]
    repeat' split
  all_goals simp [phaseOk]

/-- C4: every failing transition leaves the machine in Idle, except that a
failure of the capture phase may leave the re-enterable LoginPending state;
no failure ends in any other pending state. -/
theorem C4_failure_leaves_idle_or_login_pending (ph : Phase) (w : World)
    (e : EngineError) (h : (runPhase ph w).1 = .error e) :
    (runPhase ph w).2.1.pstate = .idle ∨
      (ph = .capture ∧ (runPhase ph w).2.1.pstate = .loginPending) := by
  rcases runPhase_state_after ph w with hok | hrest
  · rw [h] at hok
    simp [phaseOk] at hok
  · exact hrest

/-- A world whose process outlives the stop timeout. -/
def unstoppableWorld : World :=
  { sampleWorld with
    proc := { running := true, stoppable := false, launchable := true },
    pstate := .loginPending }

/-- C4 witness: a capture whose stop times out fails and leaves
LoginPending. -/
theorem C4_witness :
    (runPhase .capture unstoppableWorld).2.1.pstate = .idle ∨
      (Phase.capture = Phase.capture ∧
        (runPhase .capture unstoppableWorld).2.1.pstate = .loginPending) :=
  C4_failure_leaves_idle_or_login_pending .capture unstoppableWorld
    .stopTimeout rfl

/-- C5: in every phase, once a credential read has failed with
StoreUnreadable no write attempt follows in that phase's trace, and the
failure is surfaced to the caller as the phase's result. -/
theorem C5_unreadable_is_hard_stop (ph : Phase) (w : World) :
    noWriteAfterUnreadableRead (runPhase ph w).2.2 = true ∧
    (Event.readErr CodecError.storeUnreadable ∈ (runPhase ph w).2.2 →
      (runPhase ph w).1 = .error .storeUnreadable) := by
  cases ph
  case capture =>
    simp only [runPhase, capturePhase]
    cases hs : ensureStopped w.proc with
    | none => simp [noWriteAfterUnreadableRead]
    | some p1 =>
        cases hr : readCredential w.externallyLocked w.store with
        | error e =>
            cases e <;>
              simp [noWriteAfterUnreadableRead, isWriteEvent, codecErrToEngine]
        | ok pr =>
            obtain ⟨r, s1⟩ := pr
            cases r <;> simp [noWriteAfterUnreadableRead]
  all_goals
    simp only [runPhase, prepareLoginPhase, switchToPhase]
    repeat' split
  all_goals simp [noWriteAfterUnreadableRead]

/-- A readable-store-less world: capture meets an unreadable store. -/
def unreadableWorld : World :=
  { sampleWorld with
    store := { entries := [], readable := false },
    pstate := .loginPending }

/-- C5 witness: a capture that hits an unreadable store surfaces
StoreUnreadable. -/
theorem C5_witness :
    Event.readErr CodecError.storeUnreadable ∈
      (runPhase .capture unreadableWorld).2.2 ∧
    (runPhase .capture unreadableWorld).1 = .error .storeUnreadable :=
  ⟨by decide, (C5_unreadable_is_hard_stop .capture unreadableWorld).2 (by decide)⟩

/-! ### Locator lemmas -/

theorem probeChannel_channel (env : OsEnv) (c : Channel) (inst : Installation)
    (h : probeChannel env c = some inst) : inst.channel = c := by
  unfold probeChannel at h
  cases hf : (env.probes.filter (fun pr => pr.1 = c)).find?
      (fun pr => env.existing.contains pr.2) with
  | none => rw [hf] at h; cases h
  | some pr =>
      rw [hf] at h
      obtain rfl := (Option.some.inj h).symm
      rfl

theorem probeChannel_path_exists (env : OsEnv) (c : Channel)
    (inst : Installation) (h : probeChannel env c = some inst) :
    inst.executablePath ∈ env.existing := by
  unfold probeChannel at h
  cases hf : (env.probes.filter (fun pr => pr.1 = c)).find?
      (fun pr => env.existing.contains pr.2) with
  | none => rw [hf] at h; cases h
  | some pr =>
      rw [hf] at h
      obtain rfl := (Option.some.inj h).symm
      have hp := List.find?_some hf
      simpa using hp

theorem map_channel_filterMap (env : OsEnv) (cs : List Channel) :
    (cs.filterMap (probeChannel env)).map Installation.channel =
      cs.filter (fun c => (probeChannel env c).isSome) := by
  induction cs with
  | nil => rfl
  | cons c cs ih =>
      cases h : probeChannel env c with
      | none => simp [List.filterMap_cons, h, List.filter_cons, ih]
      | some inst =>
          have hc := probeChannel_channel env c inst h
          simp [List.filterMap_cons, h, List.filter_cons, ih, hc]

theorem mem_channelOrder (pref : ChannelPref) (c : Channel) :
    c ∈ channelOrder pref := by
  cases pref <;> cases c <;> simp [channelOrder]

/-- C6: an existing custom path override is the sole result, tagged with
the preferred channel; a dangling override falls back to normal probing and
the dangling path never appears among the returned descriptors. -/
theorem C6_custom_override (pref : ChannelPref) (p : String) (env : OsEnv) :
    (p ∈ env.existing →
      locate pref (some p) env =
        .ok [{ channel := preferredChannel pref, label := "Custom",
               executablePath := p }]) ∧
    (p ∉ env.existing →
      locate pref (some p) env = .ok (probeAll pref env) ∧
      ∀ inst ∈ probeAll pref env, inst.executablePath ≠ p) := by
  constructor
  · intro h
    simp [locate, h]
  · intro h
    refine ⟨by simp [locate, h], ?_⟩
    intro inst hmem hpe
    obtain ⟨c, _, hpc⟩ := List.mem_filterMap.mp hmem
    have hex := probeChannel_path_exists env c inst hpc
    rw [hpe] at hex
    exact h hex

/-- A sample OS environment: stable and PTB installed, canary missing. -/
def sampleEnv : OsEnv :=
  { existing := ["/apps/discord/bin", "/apps/ptb/bin"],
    probes := [(Channel.stable, "/apps/discord/bin"),
               (Channel.ptb, "/apps/ptb/bin"),
               (Channel.canary, "/apps/canary/bin")] }

/-- C6 witness: an existing override is the sole result; the dangling
override "/missing" falls back to probing and never appears. -/
theorem C6_witness :
    (locate .auto (some "/apps/discord/bin") sampleEnv =
      .ok [{ channel := preferredChannel .auto, label := "Custom",
             executablePath := "/apps/discord/bin" }]) ∧
    (locate .auto (some "/missing") sampleEnv = .ok (probeAll .auto sampleEnv) ∧
      ∀ inst ∈ probeAll .auto sampleEnv, inst.executablePath ≠ "/missing") :=
  ⟨(C6_custom_override .auto "/apps/discord/bin" sampleEnv).1 (by decide),
   (C6_custom_override .auto "/missing" sampleEnv).2 (by decide)⟩

/-- C7: with "auto" preference the surviving channels come out in the
order stable, PTB, canary, channels with no executable being omitted; and
NotFound is returned only when no override was given and probing found no
installation for any channel. -/
theorem C7_auto_order_not_found (env : OsEnv) (pref : ChannelPref)
    (custom : Option String) :
    (∀ l, locate .auto none env = .ok l →
      l.map Installation.channel =
        [Channel.stable, Channel.ptb, Channel.canary].filter
          (fun c => (probeChannel env c).isSome)) ∧
    (∀ e, locate pref custom env = .error e →
      e = .notFound ∧ custom = none ∧ ∀ c, probeChannel env c = none) := by
  constructor
  · intro l hl
    unfold locate at hl
    by_cases h : probeAll .auto env = []
    · simp [h] at hl
    · simp [h] at hl
      subst hl
      simpa [probeAll, channelOrder] using
        map_channel_filterMap env [.stable, .ptb, .canary]
  · intro e he
    cases custom with
    | some p =>
        unfold locate at he
        by_cases hp : p ∈ env.existing <;> simp [hp] at he
    | none =>
        unfold locate at he
        by_cases h : probeAll pref env = []
        · simp [h] at he
          refine ⟨he.symm, rfl, ?_⟩
          intro c
          have hmem := mem_channelOrder pref c
          exact List.filterMap_eq_nil_iff.mp h c hmem
        · simp [h] at he

/-- An environment with PTB and canary installed but no stable build. -/
def gapEnv : OsEnv :=
  { existing := ["/apps/ptb/bin", "/apps/canary/bin"],
    probes := [(Channel.stable, "/apps/discord/bin"),
               (Channel.ptb, "/apps/ptb/bin"),
               (Channel.canary, "/apps/canary/bin")] }

/-- An environment with nothing installed. -/
def emptyEnv : OsEnv := { existing := [], probes := [] }

/-- C7 witness: the gap environment yields the filtered auto order, and
the empty environment yields NotFound with every channel probing empty. -/
theorem C7_witness :
    ((probeAll .auto gapEnv).map Installation.channel =
      [Channel.stable, Channel.ptb, Channel.canary].filter
        (fun c => (probeChannel gapEnv c).isSome)) ∧
    (EngineError.notFound = EngineError.notFound ∧
      (none : Option String) = none ∧ ∀ c, probeChannel emptyEnv c = none) :=
  ⟨(C7_auto_order_not_found gapEnv .auto none).1 (probeAll .auto gapEnv) rfl,
   (C7_auto_order_not_found emptyEnv .auto none).2 .notFound rfl⟩

/-- C9 counterexample: the claim says prepareLogin takes the target channel
as its argument and detectInstallations takes preferredChannel and
customPath, but the invocation `src/App.tsx` line 202 issues for
prepareLogin carries no `channel` argument (it carries none), and the
detection invocations (lines 108 and 254-256) carry neither
`preferredChannel` nor `customPath`. -/
theorem C9_counterexample :
    ¬ ("channel" ∈ (prepareLoginHandler "p").args.map Prod.fst) ∧
    ¬ ("preferredChannel" ∈ detectInstallationsHandler.args.map Prod.fst) ∧
    ¬ ("customPath" ∈ detectInstallationsHandler.args.map Prod.fst) := by
  refine ⟨?_, ?_, ?_⟩ <;> decide

/-- C9 amended: the engine exposes exactly four caller-facing operations —
detectInstallations, prepareLogin, captureToken, switchToProfile — each
returning either a success payload (installation list, confirmation
message, or updated profile) or one of the §7 error kinds; prepareLogin and
detectInstallations are invoked with no arguments rather than taking a
channel or (preferredChannel, customPath), and captureToken and
switchToProfile each take exactly the profileId. -/
theorem C9_four_operations (profileId : String) (ph : Phase) (w : World)
    (pref : ChannelPref) (custom : Option String) (env : OsEnv) :
    ((engineInvocations profileId).map
        (fun i => (i.cmd, i.args.map Prod.fst, i.result)) =
      [("detect_discord_installations", [], .installationList),
       ("prepare_login", [], .confirmationMessage),
       ("capture_token", ["profileId"], .updatedProfile),
       ("switch_to_profile", ["profileId"], .confirmationMessage)]) ∧
    ((∃ o, (runPhase ph w).1 = .ok o) ∨
      (runPhase ph w).1 = .error .notFound ∨
      (runPhase ph w).1 = .error .launchFailed ∨
      (runPhase ph w).1 = .error .stopTimeout ∨
      (runPhase ph w).1 = .error .storeLocked ∨
      (runPhase ph w).1 = .error .storeUnreadable ∨
      (runPhase ph w).1 = .error .noCredentialFound ∨
      (runPhase ph w).1 = .error .noSavedToken) ∧
    ((∃ l, locate pref custom env = .ok l) ∨
      locate pref custom env = .error .notFound) := by
  refine ⟨rfl, ?_, ?_⟩
  · cases hr : (runPhase ph w).1 with
    | ok o => exact Or.inl ⟨o, rfl⟩
    | error e => cases e <;> simp
  · cases custom with
    | some p => by_cases hp : p ∈ env.existing <;> simp [locate, hp]
    | none => by_cases h : probeAll pref env = [] <;> simp [locate, h]

/-- C10: the saved customExecutablePath is null exactly when the input is
blank after trimming, and otherwise is the trimmed input. -/
theorem C10_blank_custom_path_is_null (input : String) :
    (jsTrim input = "" → customExecutablePathPayload input = none) ∧
    (jsTrim input ≠ "" →
      customExecutablePathPayload input = some (jsTrim input)) := by
  constructor <;> intro h <;> simp [customExecutablePathPayload, h]

/-- C10 witness: a whitespace-only input is sent as null; a padded path is
sent trimmed. -/
theorem C10_witness :
    (jsTrim "   " = "" ∧ customExecutablePathPayload "   " = none) ∧
    (jsTrim " /apps/discord " ≠ "" ∧
      customExecutablePathPayload " /apps/discord " =
        some (jsTrim " /apps/discord ")) :=
  ⟨⟨by decide, (C10_blank_custom_path_is_null "   ").1 (by decide)⟩,
   ⟨by decide, (C10_blank_custom_path_is_null " /apps/discord ").2 (by decide)⟩⟩
